import Mathlib

/-!
Shallow embedding of `sesh.go`: a session registry whose state is a map from
session identifier to session record, owned by a single serialized worker
goroutine; HTTP handlers validate and decode requests and exchange them with
the worker over channels.  uuid.UUID values are modelled as strings, the Go
map as an association list with Go's update semantics (replace on an existing
key, otherwise add), and each worker `select` case as a pure step function on
the store.  Because the worker processes exactly one operation at a time, a
set of concurrent calls is modelled as the sequence in which the worker
dequeues them.
-/

namespace Sesh

/-- Session record, sesh.go lines 33-38. -/
structure Session where
  Id : String
  Name : String
  CreationTime : String
  Filepath : String
deriving DecidableEq

/-- CreateSessionRequest, sesh.go lines 16-18: Name is a pointer, nil when the
JSON body had no such field. -/
structure CreateSessionRequest where
  Name : Option String
deriving DecidableEq

/-- CreateSessionResponse, sesh.go lines 20-22. -/
structure CreateSessionResponse where
  Id : String
deriving DecidableEq

/-- CloseSessionRequest, sesh.go lines 24-26: Id is a pointer, nil when the
JSON body had no such field. -/
structure CloseSessionRequest where
  Id : Option String
deriving DecidableEq

/-- CloseSessionResponse, sesh.go lines 28-31. -/
structure CloseSessionResponse where
  Message : String
  Status : Nat
deriving DecidableEq

/-- The worker's map sessions : map[uuid.UUID]Session (sesh.go line 66),
modelled as an association list. -/
abbrev Store := List (String × Session)

/-- Go map assignment sessions[id] = v: replace the value at an existing key,
otherwise add a new entry. -/
def mapInsert (sessions : Store) (id : String) (v : Session) : Store :=
  if sessions.any (fun p => p.1 == id) then
    sessions.map (fun p => if p.1 == id then (id, v) else p)
  else
    sessions ++ [(id, v)]

/-- Go delete(sessions, id). -/
def mapDelete (sessions : Store) (id : String) : Store :=
  sessions.filter (fun p => p.1 != id)

/-- Go map lookup sessions[id] (value and presence bit combined). -/
def mapLookup (sessions : Store) (id : String) : Option Session :=
  (sessions.find? (fun p => p.1 == id)).map Prod.snd

/-- The keys of the store. -/
def keys (sessions : Store) : List String :=
  sessions.map Prod.fst

/-- filepath.Join of the log directory and a file name (library collaborator;
Go's Join additionally cleans the joined path lexically, which changes nothing
about determinism in the inputs). -/
def filepathJoin (dir elem : String) : String :=
  dir ++ "/" ++ elem

/-- id.String()[:8], the first 8 characters of the UUID string
(sesh.go line 77). -/
def idShort (id : String) : String :=
  (id.toList.take 8).asString

/-- fmt.Sprintf of name, creationTime and the id short form joined by dashes
(sesh.go line 77). -/
def sessionFileName (name creationTime id : String) : String :=
  name ++ "-" ++ creationTime ++ "-" ++ idShort id

/-- The record built by the createSessionReq case (sesh.go lines 73-78). -/
def mkSession (logDir name id creationTime : String) : Session :=
  { Id := id, Name := name, CreationTime := creationTime,
    Filepath := filepathJoin logDir (sessionFileName name creationTime id) }

/-- createSessionReq case of the worker (sesh.go lines 70-79).  The id and the
creation time are produced by the environment (uuid.NewRandom, time.Now) and
enter as arguments; the case inserts the record and answers with the id. -/
def createSessionStep (logDir : String) (sessions : Store)
    (name id creationTime : String) : Store × CreateSessionResponse :=
  (mapInsert sessions id (mkSession logDir name id creationTime), ⟨id⟩)

/-- listSessionReq case of the worker (sesh.go lines 80-85): the values of the
map, in some order (Go map iteration order is unspecified; the association
list's order stands for one such order). -/
def listSessionsStep (sessions : Store) : List Session :=
  sessions.map Prod.snd

/-- Outcome of the closeSessionReq case: a response together with the store
afterwards, or a crash of the worker goroutine. -/
inductive CloseOutcome where
  | ok (res : CloseSessionResponse) (sessions : Store)
  | crash
deriving DecidableEq

/-- closeSessionReq case of the worker (sesh.go lines 86-94).  The case begins
with id := *closeSession.Id, so a request whose Id pointer is nil makes the
worker goroutine panic: outcome crash. -/
def closeSessionStep (sessions : Store) (req : CloseSessionRequest) :
    CloseOutcome :=
  match req.Id with
  | none => .crash
  | some id =>
    if (mapLookup sessions id).isSome then
      .ok ⟨"Successfully closed session with id " ++ id ++ "\n", 200⟩
        (mapDelete sessions id)
    else
      .ok ⟨"Session id " ++ id ++ " does not exist\n", 400⟩ sessions

/-- A JSON body after json.Decoder.Decode: either an error or a decoded
value. -/
inductive DecodeResult (α : Type) where
  | err (msg : String)
  | ok (v : α)
deriving DecidableEq

/-- What the /create-session handler does with a request before any worker
involvement. -/
inductive CreateHandlerResult where
  | badRequest (msg : String)
  | forwarded (req : CreateSessionRequest)
  | methodNotAllowed
deriving DecidableEq

/-- /create-session handler (sesh.go lines 100-124), up to the hand-off to the
worker: POST decodes the body (400 on a decode error), rejects a nil Name with
400, and otherwise forwards the request on createSessionReq; any other method
answers 405. -/
def createSessionHandler (method : String)
    (body : DecodeResult CreateSessionRequest) : CreateHandlerResult :=
  if method == "POST" then
    match body with
    | .err msg => .badRequest msg
    | .ok newSession =>
      match newSession.Name with
      | none => .badRequest "Invalid create session object"
      | some _ => .forwarded newSession
  else
    .methodNotAllowed

/-- What the /list-sessions handler does with a request. -/
inductive ListHandlerResult where
  | forwarded
  | methodNotAllowed
deriving DecidableEq

/-- /list-sessions handler (sesh.go lines 126-137): GET forwards to the
worker, any other method answers 405. -/
def listSessionsHandler (method : String) : ListHandlerResult :=
  if method == "GET" then .forwarded else .methodNotAllowed

/-- What the /close-session handler does with a request. -/
inductive CloseHandlerResult where
  | forwarded (req : CloseSessionRequest)
  | implicitOk
deriving DecidableEq

/-- /close-session handler (sesh.go lines 139-149): on POST the Decode error
is discarded, so a body that fails to decode leaves the zero value (Id nil)
and that request is forwarded to the worker all the same; the method switch
has no default branch, so every non-POST request writes nothing and net/http
then answers 200 with an empty body (implicitOk). -/
def closeSessionHandler (method : String)
    (body : DecodeResult CloseSessionRequest) : CloseHandlerResult :=
  if method == "POST" then
    match body with
    | .err _ => .forwarded ⟨none⟩
    | .ok req => .forwarded req
  else
    .implicitOk

/-- A sequence of create calls, one triple (name, id, creationTime) per call,
processed by the worker in dequeue order; returns the final store and the ids
answered to the callers, in that order. -/
def runCreates (logDir : String) (sessions : Store) :
    List (String × String × String) → Store × List String
  | [] => (sessions, [])
  | c :: rest =>
    let out := createSessionStep logDir sessions c.1 c.2.1 c.2.2
    let r := runCreates logDir out.1 rest
    (r.1, out.2.Id :: r.2)

/-- One operation as dequeued by the worker loop (sesh.go lines 68-95). -/
inductive Op where
  | create (name id creationTime : String)
  | list
  | close (req : CloseSessionRequest)
deriving DecidableEq

/-- The store after one worker iteration; none when the iteration crashes the
worker goroutine (nil Id dereference in the close case). -/
def workerStep (logDir : String) (sessions : Store) : Op → Option Store
  | .create name id t => some (createSessionStep logDir sessions name id t).1
  | .list => some sessions
  | .close req =>
    match closeSessionStep sessions req with
    | .ok _ s => some s
    | .crash => none

/-- The worker loop over a sequence of dequeued operations. -/
def workerRun (logDir : String) (sessions : Store) : List Op → Option Store
  | [] => some sessions
  | op :: rest =>
    match workerStep logDir sessions op with
    | some s => workerRun logDir s rest
    | none => none

/-- Modelled from the spec: the filesystem collaborator (spec section 6),
absent from src/sesh.go, as a map from path to the list of lines of the file
at that path; an absent path means the file does not exist yet. -/
abbrev FileSystem := List (String × List String)

/-- Modelled from the spec: the lines of the file at a path (a file not yet
created reads as no lines). -/
def fsLines (fs : FileSystem) (path : String) : List String :=
  match fs.find? (fun p => p.1 == path) with
  | some p => p.2
  | none => []

/-- Modelled from the spec: "ensure file at path exists" then "open for
append, write one line, flush/sync, close" (spec section 6): create the file
on first write, then append one line. -/
def fsAppendLine (fs : FileSystem) (path line : String) : FileSystem :=
  if fs.any (fun p => p.1 == path) then
    fs.map (fun p => if p.1 == path then (p.1, p.2 ++ [line]) else p)
  else
    fs ++ [(path, [line])]

/-- Response of the WriteSession operation (spec sections 4.2 and 6). -/
structure WriteSessionResponse where
  Message : String
  Status : Nat
deriving DecidableEq

/-- Modelled from the spec: WriteSession (spec sections 4.2, 6 and 8) is
described in the spec but absent from src/sesh.go.  It looks up the record's
filePath; on an unknown id it returns an error result and touches no file;
otherwise it delegates to the filesystem collaborator, which creates the file
on first write and appends one line, flushed before success is returned: the
returned FileSystem is the state already made durable when the response is
produced. -/
def writeSessionStep (sessions : Store) (fs : FileSystem)
    (id content : String) : WriteSessionResponse × FileSystem :=
  match mapLookup sessions id with
  | none => (⟨"Session id " ++ id ++ " does not exist\n", 400⟩, fs)
  | some s => (⟨"Successfully wrote to session " ++ id ++ "\n", 200⟩,
      fsAppendLine fs s.Filepath content)

/-- A concrete store used by the witnesses below. -/
def demoStore : Store :=
  [("id0", mkSession "/logs" "old" "id0" "t0")]

end Sesh

namespace Sesh

theorem find?_append_left_none {β : Type} (l₁ l₂ : List β) (q : β → Bool)
    (h : l₁.find? q = none) : (l₁ ++ l₂).find? q = l₂.find? q := by
  induction l₁ with
  | nil => rfl
  | cons a l ih =>
    by_cases hqa : q a = true
    · rw [List.find?_cons_of_pos _ hqa] at h
      exact absurd h (by simp)
    · rw [List.find?_cons_of_neg _ hqa] at h
      rw [List.cons_append, List.find?_cons_of_neg _ hqa]
      exact ih h

theorem find?_append_right_none {β : Type} (l₁ l₂ : List β) (q : β → Bool)
    (h : l₂.find? q = none) : (l₁ ++ l₂).find? q = l₁.find? q := by
  induction l₁ with
  | nil => rw [List.nil_append, h]; rfl
  | cons a l ih =>
    by_cases hqa : q a = true
    · rw [List.cons_append, List.find?_cons_of_pos _ hqa, List.find?_cons_of_pos _ hqa]
    · rw [List.cons_append, List.find?_cons_of_neg _ hqa, List.find?_cons_of_neg _ hqa]
      exact ih

theorem mapInsert_of_not_mem (s : Store) (id : String) (v : Session) (h : id ∉ keys s) :
    mapInsert s id v = s ++ [(id, v)] := by
  unfold mapInsert
  rw [if_neg]
  intro hany
  rw [List.any_eq_true] at hany
  obtain ⟨p, hp, hpe⟩ := hany
  exact h ((eq_of_beq hpe) ▸ List.mem_map_of_mem Prod.fst hp)

theorem mapLookup_mapInsert (s : Store) (id : String) (v : Session) :
    mapLookup (mapInsert s id v) id = some v := by
  unfold mapInsert mapLookup
  by_cases h : (s.any fun p => p.1 == id) = true
  · rw [if_pos h]
    induction s with
    | nil => simp at h
    | cons a l ih =>
      simp only [List.map_cons]
      by_cases ha : (a.1 == id) = true
      · rw [if_pos ha]
        simp
      · have ha' : (a.1 == id) = false := by simpa using ha
        rw [List.any_cons, ha', Bool.false_or] at h
        rw [if_neg ha]
        simp only [List.find?_cons, ha']
        exact ih h
  · rw [if_neg h]
    have hnone : s.find? (fun p => p.1 == id) = none := by
      rw [List.find?_eq_none]
      intro p hp hc
      exact h (List.any_eq_true.mpr ⟨p, hp, hc⟩)
    rw [find?_append_left_none _ _ _ hnone]
    simp

end Sesh

namespace Sesh

theorem fsLines_fsAppendLine_same (fs : FileSystem) (path line : String) :
    fsLines (fsAppendLine fs path line) path = fsLines fs path ++ [line] := by
  unfold fsAppendLine fsLines
  by_cases h : (fs.any fun p => p.1 == path) = true
  · rw [if_pos h]
    induction fs with
    | nil => simp at h
    | cons a l ih =>
      simp only [List.map_cons]
      by_cases ha : (a.1 == path) = true
      · rw [if_pos ha]
        simp only [List.find?_cons, ha]
      · have ha' : (a.1 == path) = false := by simpa using ha
        rw [List.any_cons, ha', Bool.false_or] at h
        rw [if_neg ha]
        simp only [List.find?_cons, ha']
        exact ih h
  · rw [if_neg h]
    have hnone : fs.find? (fun p => p.1 == path) = none := by
      rw [List.find?_eq_none]
      intro p hp hc
      exact h (List.any_eq_true.mpr ⟨p, hp, hc⟩)
    rw [find?_append_left_none _ _ _ hnone, hnone]
    simp

theorem fsLines_fsAppendLine_other (fs : FileSystem) (path line q : String)
    (hq : q ≠ path) :
    fsLines (fsAppendLine fs path line) q = fsLines fs q := by
  unfold fsAppendLine fsLines
  by_cases h : (fs.any fun p => p.1 == path) = true
  · rw [if_pos h]
    clear h
    induction fs with
    | nil => rfl
    | cons a l ih =>
      simp only [List.map_cons]
      by_cases ha : (a.1 == path) = true
      · rw [if_pos ha]
        have haq : (a.1 == q) = false := by
          simp only [beq_eq_false_iff_ne, ne_eq]
          intro hc
          exact hq (hc ▸ eq_of_beq ha)
        simp only [List.find?_cons, haq]
        exact ih
      · rw [if_neg ha]
        by_cases haq : (a.1 == q) = true
        · simp only [List.find?_cons, haq]
        · have haq' : (a.1 == q) = false := by simpa using haq
          simp only [List.find?_cons, haq']
          exact ih
  · rw [if_neg h]
    have hlast : List.find? (fun p => p.1 == q) [(path, [line])] = none := by
      have hpq : (path == q) = false := by
        simp only [beq_eq_false_iff_ne, ne_eq]
        exact fun hc => hq hc.symm
      simp only [List.find?_cons, hpq]
      rfl
    rw [find?_append_right_none _ _ _ hlast]

end Sesh

namespace Sesh

theorem runCreates_ids (logDir : String) (calls : List (String × String × String)) :
    ∀ s : Store, (runCreates logDir s calls).2 = calls.map (fun c => c.2.1) := by
  induction calls with
  | nil => intro s; rfl
  | cons c rest ih =>
    intro s
    simp only [runCreates, List.map_cons]
    rw [ih]
    rfl

theorem runCreates_store_fresh (logDir : String)
    (calls : List (String × String × String)) :
    ∀ s : Store, (calls.map fun c => c.2.1).Nodup →
    (∀ c ∈ calls, c.2.1 ∉ keys s) →
    (runCreates logDir s calls).1
      = s ++ calls.map (fun c => (c.2.1, mkSession logDir c.1 c.2.1 c.2.2)) := by
  induction calls with
  | nil => intro s _ _; simp [runCreates]
  | cons c rest ih =>
    intro s hnd hfresh
    rw [List.map_cons, List.nodup_cons] at hnd
    have hc : c.2.1 ∉ keys s := hfresh c (List.mem_cons_self c rest)
    have hstep : (createSessionStep logDir s c.1 c.2.1 c.2.2).1
        = s ++ [(c.2.1, mkSession logDir c.1 c.2.1 c.2.2)] :=
      mapInsert_of_not_mem s c.2.1 _ hc
    have hfresh' : ∀ d ∈ rest,
        d.2.1 ∉ keys (s ++ [(c.2.1, mkSession logDir c.1 c.2.1 c.2.2)]) := by
      intro d hd hmem
      unfold keys at hmem
      rw [List.map_append, List.mem_append] at hmem
      rcases hmem with h1 | h2
      · exact hfresh d (List.mem_cons_of_mem c hd) h1
      · have hde : d.2.1 = c.2.1 := by simpa using h2
        exact hnd.1 (hde ▸ List.mem_map_of_mem (fun c => c.2.1) hd)
    simp only [runCreates]
    rw [hstep, ih _ hnd.2 hfresh', List.map_cons, List.append_assoc]
    rfl

theorem mapInsert_inv (s : Store) (id : String) (v : Session) (hv : v.Id = id)
    (hinv : ∀ p ∈ s, p.2.Id = p.1) : ∀ p ∈ mapInsert s id v, p.2.Id = p.1 := by
  intro p hp
  unfold mapInsert at hp
  by_cases hany : (s.any fun q => q.1 == id) = true
  · rw [if_pos hany] at hp
    obtain ⟨q, hq, rfl⟩ := List.mem_map.mp hp
    by_cases hqid : (q.1 == id) = true
    · rw [if_pos hqid]
      exact hv
    · rw [if_neg hqid]
      exact hinv q hq
  · rw [if_neg hany] at hp
    rcases List.mem_append.mp hp with h1 | h2
    · exact hinv p h1
    · have : p = (id, v) := by simpa using h2
      subst this
      exact hv

end Sesh

namespace Sesh

theorem workerStep_inv (logDir : String) (s s₁ : Store) (op : Op)
    (hinv : ∀ p ∈ s, p.2.Id = p.1) (h : workerStep logDir s op = some s₁) :
    ∀ p ∈ s₁, p.2.Id = p.1 := by
  cases op with
  | create name id t =>
    simp only [workerStep, Option.some.injEq] at h
    subst h
    exact mapInsert_inv s id _ rfl hinv
  | list =>
    simp only [workerStep, Option.some.injEq] at h
    subst h
    exact hinv
  | close req =>
    rcases req with ⟨_ | id⟩
    · simp only [workerStep, closeSessionStep] at h
      cases h
    · simp only [workerStep, closeSessionStep] at h
      by_cases hex : (mapLookup s id).isSome = true
      · rw [if_pos hex] at h
        simp only [Option.some.injEq] at h
        subst h
        intro p hp
        exact hinv p (List.mem_filter.mp hp).1
      · rw [if_neg hex] at h
        simp only [Option.some.injEq] at h
        subst h
        exact hinv

theorem workerRun_inv (logDir : String) (ops : List Op) :
    ∀ s s₁ : Store, (∀ p ∈ s, p.2.Id = p.1) →
    workerRun logDir s ops = some s₁ → ∀ p ∈ s₁, p.2.Id = p.1 := by
  induction ops with
  | nil =>
    intro s s₁ hinv h
    simp only [workerRun, Option.some.injEq] at h
    subst h
    exact hinv
  | cons op rest ih =>
    intro s s₁ hinv h
    simp only [workerRun] at h
    cases hstep : workerStep logDir s op with
    | none => rw [hstep] at h; cases h
    | some s₂ =>
      rw [hstep] at h
      exact ih s₂ s₁ (workerStep_inv logDir s s₂ op hinv hstep) h

end Sesh

namespace Sesh

theorem countP_beq_one_of_nodup (l : List String) (a : String)
    (hnd : l.Nodup) (hmem : a ∈ l) : l.countP (fun x => x == a) = 1 := by
  induction l with
  | nil => cases hmem
  | cons b t ih =>
    rw [List.nodup_cons] at hnd
    rw [List.countP_cons]
    rcases List.mem_cons.mp hmem with rfl | hat
    · have ht : t.countP (fun x => x == a) = 0 := by
        rw [List.countP_eq_zero]
        intro x hx hxa
        exact hnd.1 ((eq_of_beq hxa) ▸ hx)
      rw [ht]
      simp
    · have hba : (b == a) = false := by
        simp only [beq_eq_false_iff_ne, ne_eq]
        intro hc
        exact hnd.1 (hc ▸ hat)
      rw [ih hnd.2 hat, hba]
      simp

/-- C1: when the worker dequeues any sequence of concurrent CreateSession calls
(each call bringing its environment-generated identifier and timestamp) and the
generated identifiers are pairwise distinct, every caller receives its own
identifier, all answered identifiers are distinct, and a ListSessions after all
of them reports exactly one record per call: none lost, none duplicated. -/
theorem createSession_concurrent_no_loss (logDir : String)
    (calls : List (String × String × String))
    (h : (calls.map fun c => c.2.1).Nodup) :
    (runCreates logDir [] calls).2 = calls.map (fun c => c.2.1) ∧
    (runCreates logDir [] calls).2.Nodup ∧
    (listSessionsStep (runCreates logDir [] calls).1).length = calls.length ∧
    ∀ c ∈ calls,
      (listSessionsStep (runCreates logDir [] calls).1).countP
        (fun r => r.Id == c.2.1) = 1 := by
  have hids := runCreates_ids logDir calls []
  have hstore := runCreates_store_fresh logDir calls [] h
    (by intro c _ hk; simp [keys] at hk)
  refine ⟨hids, ?_, ?_, ?_⟩
  · rw [hids]
    exact h
  · rw [hstore]
    simp [listSessionsStep]
  · intro c hc
    rw [hstore]
    simp only [List.nil_append, listSessionsStep, List.map_map]
    rw [List.countP_map]
    have heq : ((fun r => r.Id == c.2.1) ∘
        (Prod.snd ∘ fun d : String × String × String =>
          (d.2.1, mkSession logDir d.1 d.2.1 d.2.2)))
        = ((fun x => x == c.2.1) ∘ fun d : String × String × String => d.2.1) := rfl
    rw [heq, ← List.countP_map]
    exact countP_beq_one_of_nodup _ _ h (List.mem_map_of_mem _ hc)

/-- C2: for any name, a CreateSession whose freshly generated identifier is
distinct from every identifier in the store (the uuid generation guarantee)
answers that identifier, and a ListSessions right after contains exactly one
record bearing that name and that identifier. -/
theorem createSession_then_list (logDir : String) (s : Store) (name id t : String)
    (hfresh : id ∉ keys s) (hinv : ∀ p ∈ s, p.2.Id = p.1) :
    (createSessionStep logDir s name id t).2.Id = id ∧
    (listSessionsStep (createSessionStep logDir s name id t).1).countP
      (fun r => r.Name == name && r.Id == id) = 1 := by
  refine ⟨rfl, ?_⟩
  have h1 : (createSessionStep logDir s name id t).1
      = s ++ [(id, mkSession logDir name id t)] := mapInsert_of_not_mem s id _ hfresh
  rw [h1]
  simp only [listSessionsStep, List.map_append, List.countP_append]
  have h0 : (s.map Prod.snd).countP (fun r => r.Name == name && r.Id == id) = 0 := by
    rw [List.countP_eq_zero]
    intro r hr
    obtain ⟨p, hp, rfl⟩ := List.mem_map.mp hr
    simp only [Bool.and_eq_true, beq_iff_eq, not_and]
    intro _ hId
    have hkey : p.1 = id := (hinv p hp).symm.trans hId
    exact absurd (hkey ▸ List.mem_map_of_mem Prod.fst hp) hfresh
  rw [h0]
  simp [mkSession]

end Sesh

namespace Sesh

/-- C3: CloseSession on an identifier present in the store answers the success
message with status 200 and removes the record: a subsequent ListSessions holds
no record with that identifier. -/
theorem closeSession_removes (s : Store) (id : String)
    (hpresent : (mapLookup s id).isSome = true) (hinv : ∀ p ∈ s, p.2.Id = p.1) :
    closeSessionStep s ⟨some id⟩ =
      CloseOutcome.ok ⟨"Successfully closed session with id " ++ id ++ "\n", 200⟩
        (mapDelete s id) ∧
    ∀ r ∈ listSessionsStep (mapDelete s id), r.Id ≠ id := by
  constructor
  · simp only [closeSessionStep]
    rw [if_pos hpresent]
  · intro r hr
    simp only [listSessionsStep, mapDelete] at hr
    obtain ⟨p, hp, rfl⟩ := List.mem_map.mp hr
    have hp' := List.mem_filter.mp hp
    rw [hinv p hp'.1]
    simpa using hp'.2

/-- C4: CloseSession on an identifier absent from the store answers the
not-found message with status 400 and leaves the store exactly as it was, which
is no fault: the worker produced an ordinary response. -/
theorem closeSession_notFound (s : Store) (id : String)
    (habsent : mapLookup s id = none) :
    closeSessionStep s ⟨some id⟩ =
      CloseOutcome.ok ⟨"Session id " ++ id ++ " does not exist\n", 400⟩ s := by
  simp only [closeSessionStep]
  rw [if_neg (by simp [habsent])]

/-- C5: WriteSession on an existing identifier returns success and appends
exactly one line to that session's backing file, touching no other file, and
two sequential calls leave the two lines in call order. -/
theorem writeSession_appends (sessions : Store) (fs : FileSystem)
    (id c₁ c₂ : String) (sess : Session)
    (h : mapLookup sessions id = some sess) :
    (writeSessionStep sessions fs id c₁).1.Status = 200 ∧
    fsLines (writeSessionStep sessions fs id c₁).2 sess.Filepath
      = fsLines fs sess.Filepath ++ [c₁] ∧
    (∀ path, path ≠ sess.Filepath →
      fsLines (writeSessionStep sessions fs id c₁).2 path = fsLines fs path) ∧
    fsLines (writeSessionStep sessions (writeSessionStep sessions fs id c₁).2 id c₂).2
        sess.Filepath
      = fsLines fs sess.Filepath ++ [c₁, c₂] := by
  have hstep : ∀ (g : FileSystem) (c : String),
      writeSessionStep sessions g id c
        = (⟨"Successfully wrote to session " ++ id ++ "\n", 200⟩,
            fsAppendLine g sess.Filepath c) := by
    intro g c
    simp only [writeSessionStep, h]
  refine ⟨?_, ?_, ?_, ?_⟩
  · rw [hstep]
  · rw [hstep]
    exact fsLines_fsAppendLine_same fs sess.Filepath c₁
  · intro path hpath
    rw [hstep]
    exact fsLines_fsAppendLine_other fs sess.Filepath c₁ path hpath
  · rw [hstep, hstep]
    rw [fsLines_fsAppendLine_same, fsLines_fsAppendLine_same, List.append_assoc]
    rfl

/-- C6: a malformed close request is NOT stopped at the HTTP boundary: both an
undecodable body and a decoded body with no id are forwarded to the worker as a
request with a nil Id, and the worker crashes dereferencing it. -/
theorem closeSession_malformed_reaches_worker :
    closeSessionHandler "POST" (DecodeResult.err "unexpected EOF")
      = CloseHandlerResult.forwarded ⟨none⟩ ∧
    closeSessionHandler "POST" (DecodeResult.ok ⟨none⟩)
      = CloseHandlerResult.forwarded ⟨none⟩ ∧
    closeSessionStep demoStore ⟨none⟩ = CloseOutcome.crash :=
  ⟨rfl, rfl, rfl⟩

/-- C7: whatever the current store and for every name (including names unsafe
for a path segment), CreateSession succeeds and stores a record that is the
same pure function of the log directory, name, identifier and creation time:
two creations with equal inputs are assigned equal records, hence equal file
paths. -/
theorem filepath_deterministic (logDir name id t : String) (s₁ s₂ : Store) :
    mapLookup (createSessionStep logDir s₁ name id t).1 id
      = some (mkSession logDir name id t) ∧
    mapLookup (createSessionStep logDir s₂ name id t).1 id
      = mapLookup (createSessionStep logDir s₁ name id t).1 id := by
  have h1 := mapLookup_mapInsert s₁ id (mkSession logDir name id t)
  have h2 := mapLookup_mapInsert s₂ id (mkSession logDir name id t)
  exact ⟨h1, h2.trans h1.symm⟩

/-- C8 counterexample: a create request whose name is present but empty is not
rejected: the handler forwards it to the worker and a record with the empty
name is inserted. -/
theorem emptyName_accepted :
    createSessionHandler "POST" (DecodeResult.ok ⟨some ""⟩)
      = CreateHandlerResult.forwarded ⟨some ""⟩ ∧
    (listSessionsStep (createSessionStep "/logs" [] "" "id1" "t1").1).length = 1 :=
  ⟨rfl, rfl⟩

/-- C8 amended: a create request whose body fails to decode or whose name
field is missing is rejected with 400 and never forwarded to the worker, so no
record is inserted; a present-but-empty name is accepted. -/
theorem createSession_missing_name_rejected (body : DecodeResult CreateSessionRequest)
    (h : (∃ msg, body = DecodeResult.err msg) ∨ body = DecodeResult.ok ⟨none⟩) :
    (∃ msg, createSessionHandler "POST" body = CreateHandlerResult.badRequest msg) ∧
    ∀ req, createSessionHandler "POST" body ≠ CreateHandlerResult.forwarded req := by
  rcases h with ⟨msg, rfl⟩ | rfl
  · exact ⟨⟨msg, rfl⟩, fun req hc => by cases hc⟩
  · exact ⟨⟨"Invalid create session object", rfl⟩, fun req hc => by cases hc⟩

/-- C9: the create and list handlers answer 405 to undocumented methods, but
the close handler does not: a non-POST request on /close-session falls through
the method switch, writing nothing, which net/http turns into a 200 with an
empty body. -/
theorem closeSession_method_fallthrough :
    closeSessionHandler "GET" (DecodeResult.ok ⟨some "abc"⟩)
      = CloseHandlerResult.implicitOk ∧
    closeSessionHandler "DELETE" (DecodeResult.err "bad body")
      = CloseHandlerResult.implicitOk ∧
    createSessionHandler "GET" (DecodeResult.ok ⟨some "n"⟩)
      = CreateHandlerResult.methodNotAllowed ∧
    listSessionsHandler "POST" = ListHandlerResult.methodNotAllowed :=
  ⟨rfl, rfl, rfl, rfl⟩

/-- C10: in every store reachable by the worker from the empty map, each
entry's Id field equals the key it is stored under: creation inserts the record
keyed by its own Id, and list and close preserve the property. -/
theorem store_id_invariant (logDir : String) (ops : List Op) (s : Store)
    (h : workerRun logDir [] ops = some s) :
    ∀ p ∈ s, p.2.Id = p.1 :=
  workerRun_inv logDir ops [] s (fun p hp => absurd hp (List.not_mem_nil p)) h

end Sesh

namespace Sesh

/-- Witness for C1 at two concrete calls. -/
theorem createSession_concurrent_no_loss_witness :
    ((([("a", "id1", "t1"), ("b", "id2", "t2")] :
        List (String × String × String)).map fun c => c.2.1).Nodup) ∧
    ((runCreates "/logs" [] [("a", "id1", "t1"), ("b", "id2", "t2")]).2
        = [("a", "id1", "t1"), ("b", "id2", "t2")].map (fun c => c.2.1) ∧
      (runCreates "/logs" [] [("a", "id1", "t1"), ("b", "id2", "t2")]).2.Nodup ∧
      (listSessionsStep
          (runCreates "/logs" [] [("a", "id1", "t1"), ("b", "id2", "t2")]).1).length
        = [("a", "id1", "t1"), ("b", "id2", "t2")].length ∧
      ∀ c ∈ ([("a", "id1", "t1"), ("b", "id2", "t2")] :
          List (String × String × String)),
        (listSessionsStep
            (runCreates "/logs" [] [("a", "id1", "t1"), ("b", "id2", "t2")]).1).countP
          (fun r => r.Id == c.2.1) = 1) :=
  ⟨by decide, createSession_concurrent_no_loss "/logs" _ (by decide)⟩

/-- Witness for C2 on a store already holding one session. -/
theorem createSession_then_list_witness :
    ("id1" ∉ keys demoStore ∧ ∀ p ∈ demoStore, p.2.Id = p.1) ∧
    ((createSessionStep "/logs" demoStore "build" "id1" "t1").2.Id = "id1" ∧
      (listSessionsStep (createSessionStep "/logs" demoStore "build" "id1" "t1").1).countP
        (fun r => r.Name == "build" && r.Id == "id1") = 1) :=
  ⟨⟨by decide, by decide⟩,
    createSession_then_list "/logs" demoStore "build" "id1" "t1" (by decide) (by decide)⟩

/-- Witness for C3 at the one identifier of the demo store. -/
theorem closeSession_removes_witness :
    ((mapLookup demoStore "id0").isSome = true ∧ ∀ p ∈ demoStore, p.2.Id = p.1) ∧
    (closeSessionStep demoStore ⟨some "id0"⟩ =
        CloseOutcome.ok ⟨"Successfully closed session with id " ++ "id0" ++ "\n", 200⟩
          (mapDelete demoStore "id0") ∧
      ∀ r ∈ listSessionsStep (mapDelete demoStore "id0"), r.Id ≠ "id0") :=
  ⟨⟨by decide, by decide⟩, closeSession_removes demoStore "id0" (by decide) (by decide)⟩

/-- Witness for C4 at an identifier absent from the demo store. -/
theorem closeSession_notFound_witness :
    mapLookup demoStore "zzz" = none ∧
    closeSessionStep demoStore ⟨some "zzz"⟩ =
      CloseOutcome.ok ⟨"Session id " ++ "zzz" ++ " does not exist\n", 400⟩ demoStore :=
  ⟨by decide, closeSession_notFound demoStore "zzz" (by decide)⟩

/-- Witness for C5: two writes to the demo session, starting from an empty filesystem. -/
theorem writeSession_appends_witness :
    mapLookup demoStore "id0" = some (mkSession "/logs" "old" "id0" "t0") ∧
    ((writeSessionStep demoStore [] "id0" "started").1.Status = 200 ∧
      fsLines (writeSessionStep demoStore [] "id0" "started").2
          (mkSession "/logs" "old" "id0" "t0").Filepath
        = fsLines [] (mkSession "/logs" "old" "id0" "t0").Filepath ++ ["started"] ∧
      (∀ path, path ≠ (mkSession "/logs" "old" "id0" "t0").Filepath →
        fsLines (writeSessionStep demoStore [] "id0" "started").2 path
          = fsLines [] path) ∧
      fsLines (writeSessionStep demoStore
            (writeSessionStep demoStore [] "id0" "started").2 "id0" "finished").2
          (mkSession "/logs" "old" "id0" "t0").Filepath
        = fsLines [] (mkSession "/logs" "old" "id0" "t0").Filepath
            ++ ["started", "finished"]) :=
  ⟨by decide, writeSession_appends demoStore [] "id0" "started" "finished"
    (mkSession "/logs" "old" "id0" "t0") (by decide)⟩

/-- Witness for the amended C8 at a decoded body with no name field. -/
theorem createSession_missing_name_rejected_witness :
    ((∃ msg, (DecodeResult.ok (⟨none⟩ : CreateSessionRequest))
        = DecodeResult.err msg) ∨
      (DecodeResult.ok (⟨none⟩ : CreateSessionRequest))
        = DecodeResult.ok ⟨none⟩) ∧
    ((∃ msg, createSessionHandler "POST" (DecodeResult.ok ⟨none⟩)
        = CreateHandlerResult.badRequest msg) ∧
      ∀ req, createSessionHandler "POST" (DecodeResult.ok ⟨none⟩)
        ≠ CreateHandlerResult.forwarded req) :=
  ⟨Or.inr rfl, createSession_missing_name_rejected _ (Or.inr rfl)⟩

/-- Witness for C10 over a concrete run of create, close, create, list. -/
theorem store_id_invariant_witness :
    workerRun "/logs" [] [Op.create "build" "id1" "t1", Op.close ⟨some "id1"⟩,
        Op.create "run" "id2" "t2", Op.list]
      = some [("id2", mkSession "/logs" "run" "id2" "t2")] ∧
    ∀ p ∈ [("id2", mkSession "/logs" "run" "id2" "t2")], p.2.Id = p.1 :=
  ⟨by decide,
    store_id_invariant "/logs"
      [Op.create "build" "id1" "t1", Op.close ⟨some "id1"⟩,
        Op.create "run" "id2" "t2", Op.list] _ (by decide)⟩

end Sesh
